import Mathlib

/-!
Verification development for the RBEvaluation component of the rbOOmit /
libMesh Certified Reduced Basis framework (`include/reduced_basis/rb_evaluation.h`).

The repository ships only the class declaration; the member-function bodies
are not part of the source tree. Following the design document, the data
model is embedded directly from the header's public data members, the two
inline member functions (`get_n_basis_functions`, `set_n_basis_functions`)
are translated from the header itself, and every other operation is
modelled from the specification text (each such definition carries a
doc comment starting with `Modelled from the spec:`).

Scalars: the C++ `Number`/`Real` values are embedded as rational numbers
(exact field arithmetic); the square roots appearing in dual norms and
error bounds live in `ℝ`.
-/

namespace RBEval

/-- Error conditions surfaced to the caller (§7 of the design):
invalid-argument / invalid-state precondition violations, and numerical
computation faults (singular reduced system, non-positive stability
lower bound). -/
inductive RBError where
  | invalidArgument : RBError
  | computationFault : RBError
deriving DecidableEq, Repr

/-- `std::vector::resize`: keep the first `n` entries, pad with
value-initialized elements (`pad`) when growing. -/
def listResize {α : Type} (l : List α) (n : ℕ) (pad : α) : List α :=
  l.take n ++ List.replicate (n - l.length) pad

/-- Entry `v[i]` of a dense vector, `0` outside the stored range. -/
def vecEntry (v : List ℚ) (i : ℕ) : ℚ :=
  v.getD i 0

/-- Entry `m(i,j)` of a dense matrix stored row-major as a list of rows,
`0` outside the stored range. -/
def matEntry (m : List (List ℚ)) (i j : ℕ) : ℚ :=
  (m.getD i []).getD j 0

/-- Resize a dense row-major matrix to `n × n`, preserving existing
entries and zero-filling new ones. -/
def matResize (m : List (List ℚ)) (n : ℕ) : List (List ℚ) :=
  listResize (m.map (fun row => listResize row n 0)) n (List.replicate n 0)

/-- The external `RBThetaExpansion` contract (§6): numbers of affine terms
`Q_a`, `Q_f`, per-output `Q_l`, and evaluation of the θ coefficients at a
parameter vector μ. The evaluation object never computes these itself. -/
structure RBThetaExpansion where
  Q_a : ℕ
  Q_f : ℕ
  n_outputs : ℕ
  Q_l : ℕ → ℕ
  eval_A_theta : ℕ → List ℚ → ℚ
  eval_F_theta : ℕ → List ℚ → ℚ
  eval_output_theta : ℕ → ℕ → List ℚ → ℚ

/-- The public data members of `RBEvaluation` (header lines 193–285).
Full-order vectors (`NumericVector<Number>*`) are embedded as
`Option (List ℚ)`: `none` is a null pointer slot. The flat
`std::vector<Number> Fq_representor_norms` packs the pair `(q,q')`
row-major as `q * Q_f + q'`; the outer index of
`Aq_Aq_representor_norms` packs `(q,q')` as `q * Q_a + q'`; the inner
vector of `output_dual_norms` packs `(q,q')` as `q * Q_l n + q'`. -/
structure RBEvaluation where
  basis_functions : List (Option (List ℚ))
  greedy_param_list : List (List ℚ)
  RB_inner_product_matrix : List (List ℚ)
  RB_A_q_vector : List (List (List ℚ))
  RB_F_q_vector : List (List ℚ)
  RB_solution : List ℚ
  RB_output_vectors : List (List (List ℚ))
  RB_outputs : List ℚ
  RB_output_error_bounds : List ℝ
  Fq_representor_norms : List ℚ
  Fq_Aq_representor_norms : List (List (List ℚ))
  Aq_Aq_representor_norms : List (List (List ℚ))
  output_dual_norms : List (List ℚ)
  A_q_representor : List (List (Option (List ℚ)))
  evaluate_RB_error_bound : Bool
  compute_RB_inner_product : Bool

/-- Modelled from the spec: a freshly constructed evaluation object —
every container empty; error-bound evaluation enabled by default
(§3 describes skipping it as an opt-in performance optimization). -/
def emptyRB : RBEvaluation where
  basis_functions := []
  greedy_param_list := []
  RB_inner_product_matrix := []
  RB_A_q_vector := []
  RB_F_q_vector := []
  RB_solution := []
  RB_output_vectors := []
  RB_outputs := []
  RB_output_error_bounds := []
  Fq_representor_norms := []
  Fq_Aq_representor_norms := []
  Aq_Aq_representor_norms := []
  output_dual_norms := []
  A_q_representor := []
  evaluate_RB_error_bound := true
  compute_RB_inner_product := false

/-- Header line 144: `return basis_functions.size();`. -/
def RBEvaluation.get_n_basis_functions (ev : RBEvaluation) : ℕ :=
  ev.basis_functions.length

/-- Header line 150: `basis_functions.resize(n_bfs);` — a resize of the
vector of pointers: growth appends value-initialized (null) pointers,
no basis vector is allocated. -/
def RBEvaluation.set_n_basis_functions (ev : RBEvaluation) (n_bfs : ℕ) : RBEvaluation :=
  { ev with basis_functions := listResize ev.basis_functions n_bfs none }

/-- Summation of `f 0 + f 1 + ... + f (n-1)` in loop order, as the C++
implementation would accumulate it. -/
def lsum (n : ℕ) (f : ℕ → ℚ) : ℚ :=
  ((List.range n).map f).sum

/-- Build a dense `N×N` row-major matrix from an entry function. -/
def buildMat (N : ℕ) (f : ℕ → ℕ → ℚ) : List (List ℚ) :=
  (List.range N).map (fun i => (List.range N).map (f i))

/-- Modelled from the spec (§4.2 step 1, the body of `rb_solve` is not in
the source tree): the reduced `N×N` system matrix
`Σ_q θ_A_q(μ) · RB_A_q[0:N,0:N]`. -/
def RB_system_matrix (theta : RBThetaExpansion) (μ : List ℚ)
    (RB_A_q : List (List (List ℚ))) (N : ℕ) : List (List ℚ) :=
  buildMat N (fun i j =>
    lsum theta.Q_a (fun q => theta.eval_A_theta q μ * matEntry (RB_A_q.getD q []) i j))

/-- Modelled from the spec (§4.2 step 1): the reduced right-hand side
`Σ_q θ_F_q(μ) · RB_F_q[0:N]`. -/
def RB_system_rhs (theta : RBThetaExpansion) (μ : List ℚ)
    (RB_F_q : List (List ℚ)) (N : ℕ) : List ℚ :=
  (List.range N).map (fun i =>
    lsum theta.Q_f (fun q => theta.eval_F_theta q μ * vecEntry (RB_F_q.getD q []) i))

/-- Laplace cofactor expansion along the first row, with an explicit fuel
argument (the number of remaining rows) for structural recursion. -/
def detFuel : ℕ → List (List ℚ) → ℚ
  | _, [] => 1
  | 0, _ :: _ => 0
  | fuel + 1, r :: rs =>
    ((List.range r.length).map (fun j =>
      (-1 : ℚ) ^ j * r.getD j 0 * detFuel fuel (rs.map (fun row => row.eraseIdx j)))).sum

/-- Determinant of a dense row-major square matrix. -/
def detL (m : List (List ℚ)) : ℚ :=
  detFuel m.length m

/-- Replace column `j` of a dense row-major matrix by the vector `b`. -/
def replaceCol (A : List (List ℚ)) (b : List ℚ) (j : ℕ) : List (List ℚ) :=
  List.zipWith (fun row bi => row.set j bi) A b

/-- Modelled from the spec (§4.2 step 2, the dense solver is not in the
source tree): the unique solution of a nonsingular dense `N×N` system,
realized by Cramer's rule (exact arithmetic over ℚ). -/
def cramerSolve (A : List (List ℚ)) (b : List ℚ) (N : ℕ) : List ℚ :=
  (List.range N).map (fun i => detL (replaceCol A b i) / detL A)

/-- Modelled from the spec (§4.3, the body of `compute_residual_dual_norm`
is not in the source tree): the bilinear expansion of the squared residual
dual norm, accumulated in loop order over the affine terms and the first
`N` entries of the reduced solution `u`. -/
def residual_norm_sq (theta : RBThetaExpansion) (μ : List ℚ)
    (Fq : List ℚ) (FqAq AqAq : List (List (List ℚ)))
    (u : List ℚ) (N : ℕ) : ℚ :=
  lsum theta.Q_f (fun q => lsum theta.Q_f (fun q2 =>
      theta.eval_F_theta q μ * theta.eval_F_theta q2 μ * vecEntry Fq (q * theta.Q_f + q2)))
  + 2 * lsum theta.Q_f (fun q => lsum theta.Q_a (fun q2 => lsum N (fun j =>
      theta.eval_F_theta q μ * theta.eval_A_theta q2 μ * vecEntry u j *
        vecEntry ((FqAq.getD q []).getD q2 []) j)))
  + lsum theta.Q_a (fun q => lsum theta.Q_a (fun q2 => lsum N (fun i => lsum N (fun j =>
      theta.eval_A_theta q μ * theta.eval_A_theta q2 μ * vecEntry u i * vecEntry u j *
        matEntry (AqAq.getD (q * theta.Q_a + q2) []) i j))))

/-- Modelled from the spec (§4.3): the residual dual norm for the solution
saved in `RB_solution`: square root of the squared expansion, clamped to
`≥ 0` before the root is taken. -/
noncomputable def RBEvaluation.compute_residual_dual_norm (ev : RBEvaluation)
    (theta : RBThetaExpansion) (μ : List ℚ) (N : ℕ) : ℝ :=
  Real.sqrt ((max 0 (residual_norm_sq theta μ ev.Fq_representor_norms
    ev.Fq_Aq_representor_norms ev.Aq_Aq_representor_norms ev.RB_solution N) : ℚ) : ℝ)

/-- Modelled from the spec (§9 open question): the documented fixed
epsilon below which a stability lower bound counts as "near-zero". -/
def stability_tol : ℚ :=
  1 / 10 ^ 10

/-- Modelled from the spec (§4.2 step 3, the body is not in the source
tree): the default residual scaling denominator. It guards against a
near-zero or negative stability lower bound by signalling a computation
fault, and otherwise scales by the lower bound itself. -/
def residual_scaling_denom (alpha_LB : ℚ) : Except RBError ℚ :=
  if alpha_LB < stability_tol then .error .computationFault else .ok alpha_LB

/-- Modelled from the spec (§4.4): the squared dual norm of output `n`,
the closed-form bilinear evaluation over `output_dual_norms[n]` and
`θ_out_q(μ)`. -/
def output_dual_norm_sq (theta : RBThetaExpansion) (μ : List ℚ)
    (odn : List (List ℚ)) (n : ℕ) : ℚ :=
  lsum (theta.Q_l n) (fun q => lsum (theta.Q_l n) (fun q2 =>
    theta.eval_output_theta n q μ * theta.eval_output_theta n q2 μ *
      vecEntry (odn.getD n []) (q * theta.Q_l n + q2)))

/-- Modelled from the spec (§4.4, the body of `eval_output_dual_norm` is
not in the source tree): dual norm of output `n` at parameter `μ` — it
reads only `output_dual_norms` and the θ_out coefficients, never the
basis size or the current solution. -/
noncomputable def RBEvaluation.eval_output_dual_norm (ev : RBEvaluation)
    (theta : RBThetaExpansion) (n : ℕ) (μ : List ℚ) : ℝ :=
  Real.sqrt ((max 0 (output_dual_norm_sq theta μ ev.output_dual_norms n) : ℚ) : ℝ)

/-- Modelled from the spec (§4.2, the body of `rb_solve` is not in the
source tree): the computational core of the online solve, a function of
exactly the data members the algorithm reads. Returns the new
`RB_solution`, `RB_outputs`, `RB_output_error_bounds` and the (absolute)
error bound. Precondition `N ≤ n_bfs` is checked loudly (§7a); a
singular reduced system is a computation fault (§7b). When
`eval_bound` is off the bound computation is skipped entirely and the
returned bound and output bounds are the trivial `0` / empty list (the
spec leaves them unspecified in that case). -/
noncomputable def rb_solve_core (theta : RBThetaExpansion) (μ : List ℚ) (alpha_LB : ℚ)
    (n_bfs : ℕ) (RB_A_q : List (List (List ℚ))) (RB_F_q : List (List ℚ))
    (outvecs : List (List (List ℚ))) (Fq : List ℚ)
    (FqAq AqAq : List (List (List ℚ))) (odn : List (List ℚ))
    (eval_bound : Bool) (N : ℕ) : Except RBError (List ℚ × List ℚ × List ℝ × ℝ) :=
  if n_bfs < N then .error .invalidArgument
  else
    let A := RB_system_matrix theta μ RB_A_q N
    let b := RB_system_rhs theta μ RB_F_q N
    if detL A = 0 then .error .computationFault
    else
      let sol : List ℚ := cramerSolve A b N
      let outs : List ℚ := (List.range theta.n_outputs).map (fun n =>
        lsum (theta.Q_l n) (fun q => theta.eval_output_theta n q μ *
          lsum N (fun j => vecEntry ((outvecs.getD n []).getD q []) j * vecEntry sol j)))
      if eval_bound then
        match residual_scaling_denom alpha_LB with
        | .error e => .error e
        | .ok denom =>
          let bound : ℝ :=
            Real.sqrt ((max 0 (residual_norm_sq theta μ Fq FqAq AqAq sol N) : ℚ) : ℝ) /
              (denom : ℝ)
          let obnds : List ℝ := (List.range theta.n_outputs).map (fun n =>
            bound * Real.sqrt ((max 0 (output_dual_norm_sq theta μ odn n) : ℚ) : ℝ))
          .ok (sol, outs, obnds, bound)
      else
        .ok (sol, outs, [], 0)

/-- Modelled from the spec (§4.2): the online solve. Runs the core on the
data members it reads and overwrites `RB_solution`, `RB_outputs` and
`RB_output_error_bounds` in place, returning the updated object together
with the (absolute) error bound. -/
noncomputable def RBEvaluation.rb_solve (ev : RBEvaluation) (theta : RBThetaExpansion)
    (μ : List ℚ) (alpha_LB : ℚ) (N : ℕ) : Except RBError (RBEvaluation × ℝ) :=
  (rb_solve_core theta μ alpha_LB ev.get_n_basis_functions ev.RB_A_q_vector
      ev.RB_F_q_vector ev.RB_output_vectors ev.Fq_representor_norms
      ev.Fq_Aq_representor_norms ev.Aq_Aq_representor_norms ev.output_dual_norms
      ev.evaluate_RB_error_bound N).map
    (fun r => ({ ev with
        RB_solution := r.1
        RB_outputs := r.2.1
        RB_output_error_bounds := r.2.2.1 }, r.2.2.2))

/-- Modelled from the spec (§4.1, the body of `clear` is not in the
source tree): releases all basis vectors and resets every reduced data
structure and the Riesz representors to empty. The flags and the
(external) theta-expansion association are untouched. -/
def RBEvaluation.clear (ev : RBEvaluation) : RBEvaluation :=
  { ev with
    basis_functions := []
    greedy_param_list := []
    RB_inner_product_matrix := []
    RB_A_q_vector := []
    RB_F_q_vector := []
    RB_solution := []
    RB_output_vectors := []
    RB_outputs := []
    RB_output_error_bounds := []
    Fq_representor_norms := []
    Fq_Aq_representor_norms := []
    Aq_Aq_representor_norms := []
    output_dual_norms := []
    A_q_representor := [] }

/-- Modelled from the spec (§4.1, the body of `clear_riesz_representors`
is not in the source tree): frees only the `A_q_representor` full-order
vectors. The scalar representor-norm tensors and the basis functions are
left untouched. -/
def RBEvaluation.clear_riesz_representors (ev : RBEvaluation) : RBEvaluation :=
  { ev with A_q_representor := [] }

/-- Modelled from the spec (§4.1, the body of `resize_data_structures` is
not in the source tree): grows all dense reduced structures to capacity
`Nmax`, zero-filling new entries and preserving existing ones
(append-only growth); fails with an invalid-argument condition when
`Nmax` is smaller than the current basis count. -/
def RBEvaluation.resize_data_structures (ev : RBEvaluation)
    (theta : RBThetaExpansion) (Nmax : ℕ) : Except RBError RBEvaluation :=
  if Nmax < ev.get_n_basis_functions then .error .invalidArgument
  else .ok { ev with
    RB_inner_product_matrix := matResize ev.RB_inner_product_matrix Nmax
    RB_A_q_vector := (List.range theta.Q_a).map
      (fun q => matResize (ev.RB_A_q_vector.getD q []) Nmax)
    RB_F_q_vector := (List.range theta.Q_f).map
      (fun q => listResize (ev.RB_F_q_vector.getD q []) Nmax 0)
    RB_output_vectors := (List.range theta.n_outputs).map (fun n =>
      (List.range (theta.Q_l n)).map
        (fun q => listResize ((ev.RB_output_vectors.getD n []).getD q []) Nmax 0))
    Fq_representor_norms := listResize ev.Fq_representor_norms (theta.Q_f * theta.Q_f) 0
    Fq_Aq_representor_norms := (List.range theta.Q_f).map (fun q =>
      (List.range theta.Q_a).map
        (fun q2 => listResize ((ev.Fq_Aq_representor_norms.getD q []).getD q2 []) Nmax 0))
    Aq_Aq_representor_norms := (List.range (theta.Q_a * theta.Q_a)).map
      (fun qq => matResize (ev.Aq_Aq_representor_norms.getD qq []) Nmax)
    output_dual_norms := (List.range theta.n_outputs).map
      (fun n => listResize (ev.output_dual_norms.getD n []) (theta.Q_l n * theta.Q_l n) 0)
    A_q_representor := (List.range theta.Q_a).map
      (fun q => listResize (ev.A_q_representor.getD q []) Nmax none) }

/-- The self-contained offline bundle of §4.5/§6: every reduced (dense,
small) data member plus the recorded basis count, independent of the
full-order basis vectors. The exact on-disk layout is an implementation
choice; the bundle captures its information content. -/
structure RBOfflineBundle where
  n_bfs : ℕ
  greedy_param_list : List (List ℚ)
  RB_inner_product_matrix : List (List ℚ)
  RB_A_q_vector : List (List (List ℚ))
  RB_F_q_vector : List (List ℚ)
  RB_output_vectors : List (List (List ℚ))
  Fq_representor_norms : List ℚ
  Fq_Aq_representor_norms : List (List (List ℚ))
  Aq_Aq_representor_norms : List (List (List ℚ))
  output_dual_norms : List (List ℚ)

/-- Modelled from the spec (§4.5, the body of `write_offline_data_to_files`
is not in the source tree): serialize every reduced data member into the
offline bundle. -/
def RBEvaluation.write_offline_data_to_files (ev : RBEvaluation) : RBOfflineBundle where
  n_bfs := ev.get_n_basis_functions
  greedy_param_list := ev.greedy_param_list
  RB_inner_product_matrix := ev.RB_inner_product_matrix
  RB_A_q_vector := ev.RB_A_q_vector
  RB_F_q_vector := ev.RB_F_q_vector
  RB_output_vectors := ev.RB_output_vectors
  Fq_representor_norms := ev.Fq_representor_norms
  Fq_Aq_representor_norms := ev.Fq_Aq_representor_norms
  Aq_Aq_representor_norms := ev.Aq_Aq_representor_norms
  output_dual_norms := ev.output_dual_norms

/-- Modelled from the spec (§4.5, the body of
`read_offline_data_from_files` is not in the source tree): deserialize
the offline bundle into the evaluation object, setting the basis count
recorded in the bundle (the pointer slots stay null until
`read_in_basis_functions` fills them). -/
def RBEvaluation.read_offline_data_from_files (ev : RBEvaluation)
    (bundle : RBOfflineBundle) : RBEvaluation :=
  { ev.set_n_basis_functions bundle.n_bfs with
    greedy_param_list := bundle.greedy_param_list
    RB_inner_product_matrix := bundle.RB_inner_product_matrix
    RB_A_q_vector := bundle.RB_A_q_vector
    RB_F_q_vector := bundle.RB_F_q_vector
    RB_output_vectors := bundle.RB_output_vectors
    Fq_representor_norms := bundle.Fq_representor_norms
    Fq_Aq_representor_norms := bundle.Fq_Aq_representor_norms
    Aq_Aq_representor_norms := bundle.Aq_Aq_representor_norms
    output_dual_norms := bundle.output_dual_norms }

/-- Modelled from the spec (§4.5, the body of `write_out_basis_functions`
is not in the source tree): persist the full-order basis vectors; the
binary/ASCII encoding is an I/O detail with no information loss, so the
bundle is the vector sequence itself. -/
def RBEvaluation.write_out_basis_functions (ev : RBEvaluation) :
    List (Option (List ℚ)) :=
  ev.basis_functions

/-- Modelled from the spec (§4.5, the body of `read_in_basis_functions`
is not in the source tree): read the persisted full-order basis vectors
back into the evaluation object. -/
def RBEvaluation.read_in_basis_functions (ev : RBEvaluation)
    (data : List (Option (List ℚ))) : RBEvaluation :=
  { ev with basis_functions := data }

/-! ### Helper lemmas about the container primitives -/

lemma length_listResize {α : Type} (l : List α) (n : ℕ) (pad : α) :
    (listResize l n pad).length = n := by
  simp [listResize, List.length_take]
  omega

lemma getD_listResize {α : Type} (l : List α) (n i : ℕ) (pad d : α) (h : i < n) :
    (listResize l n pad).getD i d = if i < l.length then l.getD i d else pad := by
  simp only [List.getD_eq_getElem?_getD, listResize]
  by_cases hl : i < l.length
  · rw [List.getElem?_append_left (by simp [List.length_take]; omega),
      List.getElem?_take_of_lt h]
    simp [hl]
  · rw [List.getElem?_append_right (by simp [List.length_take]; omega)]
    simp only [hl, if_false]
    cases h2 : (List.replicate (n - l.length) pad)[i - (l.take n).length]? with
    | none =>
      exfalso
      rw [List.getElem?_eq_none_iff] at h2
      simp [List.length_take] at h2
      omega
    | some x =>
      have hx : x ∈ List.replicate (n - l.length) pad := List.getElem?_mem h2
      rw [List.eq_of_mem_replicate hx]
      rfl

lemma vecEntry_listResize (v : List ℚ) (n i : ℕ) (h : i < n) :
    vecEntry (listResize v n 0) i = vecEntry v i := by
  unfold vecEntry
  rw [getD_listResize _ _ _ _ _ h]
  split
  · rfl
  · rw [List.getD_eq_default]
    omega

lemma matEntry_matResize (m : List (List ℚ)) (n i j : ℕ) (hi : i < n) (hj : j < n) :
    matEntry (matResize m n) i j = matEntry m i j := by
  unfold matEntry matResize
  rw [getD_listResize _ _ _ _ _ hi]
  by_cases hm : i < m.length
  · simp only [List.length_map, hm, if_true]
    have : (m.map (fun row => listResize row n 0)).getD i [] = listResize (m.getD i []) n 0 := by
      simp only [List.getD_eq_getElem?_getD, List.getElem?_map]
      rw [List.getElem?_eq_getElem hm]
      rfl
    rw [this, getD_listResize _ _ _ _ _ hj]
    split
    · rfl
    · rw [List.getD_eq_default]
      omega
  · simp only [List.length_map, hm, if_false]
    rw [List.getD_eq_default m _ (by omega)]
    simp [List.getD_eq_getElem?_getD, List.getElem?_replicate, hj]

lemma lsum_eq_sum_range (n : ℕ) (f : ℕ → ℚ) :
    lsum n f = ∑ i in Finset.range n, f i := by
  induction n with
  | zero => simp [lsum]
  | succ k ih =>
    rw [lsum, List.range_succ, Finset.sum_range_succ, List.map_append, List.sum_append]
    simp [← ih, lsum]

lemma getD_map_lt {α β : Type} (l : List α) (f : α → β) (i : ℕ) (d : β) (d2 : α)
    (h : i < l.length) :
    (l.map f).getD i d = f (l.getD i d2) := by
  rw [List.getD_eq_getElem _ _ (by simpa using h), List.getD_eq_getElem _ _ h]
  simp

lemma getD_map_range {α : Type} (n q : ℕ) (f : ℕ → α) (d : α) (h : q < n) :
    ((List.range n).map f).getD q d = f q := by
  rw [getD_map_lt _ _ _ _ 0 (by simpa using h)]
  congr 1
  rw [List.getD_eq_getElem _ _ (by simpa using h)]
  simp

lemma getD_matResize (m : List (List ℚ)) (n i : ℕ) (h : i < n) :
    (matResize m n).getD i [] =
      if i < m.length then listResize (m.getD i []) n 0 else List.replicate n 0 := by
  unfold matResize
  rw [getD_listResize _ _ _ _ _ h]
  by_cases hm : i < m.length
  · simp only [List.length_map, hm, if_true]
    rw [getD_map_lt _ _ _ _ [] hm]
  · simp [hm]

lemma length_getD_matResize (m : List (List ℚ)) (n i : ℕ) (h : i < n) :
    ((matResize m n).getD i []).length = n := by
  rw [getD_matResize _ _ _ h]
  split
  · rw [length_listResize]
  · rw [List.length_replicate]

/-- The results of `rb_solve` (solution, outputs, output bounds, error
bound) depend only on the data members the algorithm reads: two states
agreeing on those produce identical results. -/
lemma rb_solve_eq_of_fields (ev1 ev2 : RBEvaluation) (theta : RBThetaExpansion)
    (μ : List ℚ) (alpha : ℚ) (N : ℕ)
    (hb : ev1.basis_functions.length = ev2.basis_functions.length)
    (hA : ev1.RB_A_q_vector = ev2.RB_A_q_vector)
    (hF : ev1.RB_F_q_vector = ev2.RB_F_q_vector)
    (ho : ev1.RB_output_vectors = ev2.RB_output_vectors)
    (hFq : ev1.Fq_representor_norms = ev2.Fq_representor_norms)
    (hFqAq : ev1.Fq_Aq_representor_norms = ev2.Fq_Aq_representor_norms)
    (hAqAq : ev1.Aq_Aq_representor_norms = ev2.Aq_Aq_representor_norms)
    (hodn : ev1.output_dual_norms = ev2.output_dual_norms)
    (hflag : ev1.evaluate_RB_error_bound = ev2.evaluate_RB_error_bound) :
    (ev1.rb_solve theta μ alpha N).map
        (fun p => (p.1.RB_solution, p.1.RB_outputs, p.1.RB_output_error_bounds, p.2)) =
      (ev2.rb_solve theta μ alpha N).map
        (fun p => (p.1.RB_solution, p.1.RB_outputs, p.1.RB_output_error_bounds, p.2)) := by
  unfold RBEvaluation.rb_solve RBEvaluation.get_n_basis_functions
  rw [hb, hA, hF, ho, hFq, hFqAq, hAqAq, hodn, hflag]
  cases rb_solve_core theta μ alpha ev2.basis_functions.length ev2.RB_A_q_vector
    ev2.RB_F_q_vector ev2.RB_output_vectors ev2.Fq_representor_norms
    ev2.Fq_Aq_representor_norms ev2.Aq_Aq_representor_norms ev2.output_dual_norms
    ev2.evaluate_RB_error_bound N <;> rfl

/-! ### Claims -/

/-- Claim C10: `get_n_basis_functions` returns the current length of the
`basis_functions` container; immediately after `set_n_basis_functions n`
it returns `n`; and `set_n_basis_functions` only resizes the pointer
container, so a slot added by growing the count (index at or beyond the
old length) holds a null pointer. -/
theorem get_set_n_basis_functions_spec (ev : RBEvaluation) (n : ℕ) :
    ev.get_n_basis_functions = ev.basis_functions.length ∧
    (ev.set_n_basis_functions n).get_n_basis_functions = n ∧
    ∀ i, ev.basis_functions.length ≤ i → i < n →
      (ev.set_n_basis_functions n).basis_functions.getD i (some []) = none := by
  refine ⟨rfl, ?_, ?_⟩
  · unfold RBEvaluation.set_n_basis_functions RBEvaluation.get_n_basis_functions
    exact length_listResize _ _ _
  · intro i h1 h2
    unfold RBEvaluation.set_n_basis_functions
    rw [getD_listResize _ _ _ _ _ h2]
    rw [if_neg (by omega)]

theorem get_set_n_basis_functions_spec_witness :
    (emptyRB.set_n_basis_functions 2).get_n_basis_functions = 2 ∧
    (emptyRB.set_n_basis_functions 0).get_n_basis_functions = 0 ∧
    emptyRB.basis_functions.length ≤ 0 ∧ (0 : ℕ) < 2 ∧
      (emptyRB.set_n_basis_functions 2).basis_functions.getD 0 (some []) = none :=
  ⟨(get_set_n_basis_functions_spec emptyRB 2).2.1,
    (get_set_n_basis_functions_spec emptyRB 0).2.1,
    Nat.le_refl 0, by omega,
    (get_set_n_basis_functions_spec emptyRB 2).2.2 0 (Nat.le_refl 0) (by omega)⟩

/-- Claim C4: `resize_data_structures` called with `Nmax` smaller than the
current basis count fails with an invalid-argument condition instead of
silently truncating the stored reduced data. -/
theorem resize_data_structures_rejects_shrink (ev : RBEvaluation)
    (theta : RBThetaExpansion) (Nmax : ℕ) (h : Nmax < ev.get_n_basis_functions) :
    ev.resize_data_structures theta Nmax = .error .invalidArgument := by
  unfold RBEvaluation.resize_data_structures
  rw [if_pos h]

theorem resize_data_structures_rejects_shrink_witness :
    (0 : ℕ) < ({ emptyRB with basis_functions := [none] } :
        RBEvaluation).get_n_basis_functions ∧
      ({ emptyRB with basis_functions := [none] } :
        RBEvaluation).resize_data_structures
          ⟨1, 1, 0, fun _ => 0, fun _ _ => 1, fun _ _ => 1, fun _ _ _ => 0⟩ 0 =
        .error .invalidArgument :=
  ⟨by simp [RBEvaluation.get_n_basis_functions],
    resize_data_structures_rejects_shrink _ _ 0
      (by simp [RBEvaluation.get_n_basis_functions])⟩

/-- Claim C8: the default `residual_scaling_denom` signals a computation
fault for every near-zero (below the documented tolerance) or negative
stability lower bound, and any value it does accept is strictly positive,
so `rb_solve` never divides by zero nor returns a negative bound from it. -/
theorem residual_scaling_denom_guards (alpha : ℚ) :
    (alpha < stability_tol →
      residual_scaling_denom alpha = .error .computationFault) ∧
    ∀ d, residual_scaling_denom alpha = .ok d → 0 < d := by
  constructor
  · intro h
    unfold residual_scaling_denom
    rw [if_pos h]
  · intro d hd
    unfold residual_scaling_denom at hd
    by_cases h : alpha < stability_tol
    · rw [if_pos h] at hd
      exact absurd hd (by simp)
    · rw [if_neg h] at hd
      have : alpha = d := by
        simpa using hd
      have htol : (0 : ℚ) < stability_tol := by norm_num [stability_tol]
      rw [← this]
      push_neg at h
      exact lt_of_lt_of_le htol h

theorem residual_scaling_denom_guards_witness :
    residual_scaling_denom 0 = .error .computationFault ∧ (0 : ℚ) < 1 :=
  ⟨(residual_scaling_denom_guards 0).1 (by norm_num [stability_tol]),
    (residual_scaling_denom_guards 1).2 1
      (by norm_num [residual_scaling_denom, stability_tol])⟩

/-- Claim C3: `compute_residual_dual_norm N` equals the square root of the
bilinear expansion
`Σ θ_F θ_F Fq + 2 Σ θ_F θ_A u_j FqAq + Σ θ_A θ_A u_i u_j AqAq`
over the first `N` entries of the reduced solution, with the squared
value clamped to `≥ 0` before the root, and the returned value is always
`≥ 0`. -/
theorem compute_residual_dual_norm_spec (ev : RBEvaluation)
    (theta : RBThetaExpansion) (μ : List ℚ) (N : ℕ) :
    ev.compute_residual_dual_norm theta μ N =
      Real.sqrt (((max 0 (
        (∑ q in Finset.range theta.Q_f, ∑ q2 in Finset.range theta.Q_f,
          theta.eval_F_theta q μ * theta.eval_F_theta q2 μ *
            vecEntry ev.Fq_representor_norms (q * theta.Q_f + q2))
        + 2 * ∑ q in Finset.range theta.Q_f, ∑ q2 in Finset.range theta.Q_a,
            ∑ j in Finset.range N,
              theta.eval_F_theta q μ * theta.eval_A_theta q2 μ *
                vecEntry ev.RB_solution j *
                vecEntry ((ev.Fq_Aq_representor_norms.getD q []).getD q2 []) j
        + ∑ q in Finset.range theta.Q_a, ∑ q2 in Finset.range theta.Q_a,
            ∑ i in Finset.range N, ∑ j in Finset.range N,
              theta.eval_A_theta q μ * theta.eval_A_theta q2 μ *
                vecEntry ev.RB_solution i * vecEntry ev.RB_solution j *
                matEntry (ev.Aq_Aq_representor_norms.getD (q * theta.Q_a + q2) []) i j)
        : ℚ) : ℝ)) ∧
    0 ≤ ev.compute_residual_dual_norm theta μ N := by
  constructor
  · unfold RBEvaluation.compute_residual_dual_norm residual_norm_sq
    simp only [lsum_eq_sum_range]
  · exact Real.sqrt_nonneg _

/-- Claim C6: `clear_riesz_representors` frees only the `A_q_representor`
full-order vectors — the scalar representor-norm tensors and the basis
functions are unchanged — and a subsequent `rb_solve` produces exactly
the same results (solution, outputs, bounds, error bound) as before the
call. -/
theorem clear_riesz_representors_frame (ev : RBEvaluation)
    (theta : RBThetaExpansion) (μ : List ℚ) (alpha : ℚ) (N : ℕ) :
    ev.clear_riesz_representors.A_q_representor = [] ∧
    ev.clear_riesz_representors.Fq_representor_norms = ev.Fq_representor_norms ∧
    ev.clear_riesz_representors.Fq_Aq_representor_norms = ev.Fq_Aq_representor_norms ∧
    ev.clear_riesz_representors.Aq_Aq_representor_norms = ev.Aq_Aq_representor_norms ∧
    ev.clear_riesz_representors.basis_functions = ev.basis_functions ∧
    (ev.clear_riesz_representors.rb_solve theta μ alpha N).map
        (fun p => (p.1.RB_solution, p.1.RB_outputs, p.1.RB_output_error_bounds, p.2)) =
      (ev.rb_solve theta μ alpha N).map
        (fun p => (p.1.RB_solution, p.1.RB_outputs, p.1.RB_output_error_bounds, p.2)) :=
  ⟨rfl, rfl, rfl, rfl, rfl,
    rb_solve_eq_of_fields _ _ _ _ _ _ rfl rfl rfl rfl rfl rfl rfl rfl rfl⟩

/-- Claim C7: writing the offline bundle and the basis functions, then
reading both back into a freshly cleared evaluation object, reproduces
the `rb_solve` outputs (solution vector, output values, error bounds and
the returned error bound) for every `N` and parameter. -/
theorem offline_roundtrip_reproduces_rb_solve (ev : RBEvaluation)
    (theta : RBThetaExpansion) (μ : List ℚ) (alpha : ℚ) (N : ℕ) :
    (((ev.clear.read_offline_data_from_files
          ev.write_offline_data_to_files).read_in_basis_functions
            ev.write_out_basis_functions).rb_solve theta μ alpha N).map
        (fun p => (p.1.RB_solution, p.1.RB_outputs, p.1.RB_output_error_bounds, p.2)) =
      (ev.rb_solve theta μ alpha N).map
        (fun p => (p.1.RB_solution, p.1.RB_outputs, p.1.RB_output_error_bounds, p.2)) :=
  rb_solve_eq_of_fields _ _ _ _ _ _ rfl rfl rfl rfl rfl rfl rfl rfl rfl

lemma except_map_congr {ε α β : Type} (x : Except ε α) (f g : α → β)
    (h : ∀ a, x = .ok a → f a = g a) : x.map f = x.map g := by
  cases x with
  | error e => rfl
  | ok a => simpa [Except.map] using h a rfl

/-- Any successful `rb_solve` leaves `output_dual_norms` untouched. -/
lemma rb_solve_preserves_output_dual_norms (ev : RBEvaluation)
    (theta : RBThetaExpansion) (μ2 : List ℚ) (alpha : ℚ) (N : ℕ)
    (p : RBEvaluation × ℝ) (h : ev.rb_solve theta μ2 alpha N = .ok p) :
    p.1.output_dual_norms = ev.output_dual_norms := by
  unfold RBEvaluation.rb_solve at h
  cases hc : rb_solve_core theta μ2 alpha ev.get_n_basis_functions ev.RB_A_q_vector
    ev.RB_F_q_vector ev.RB_output_vectors ev.Fq_representor_norms
    ev.Fq_Aq_representor_norms ev.Aq_Aq_representor_norms ev.output_dual_norms
    ev.evaluate_RB_error_bound N with
  | error e =>
    rw [hc] at h
    exact absurd h (by simp [Except.map])
  | ok r =>
    rw [hc] at h
    simp only [Except.map, Except.ok.injEq] at h
    rw [← h]

/-- Claim C9: `eval_output_dual_norm` is independent of the current basis
size and of the online solution state: it is unchanged by any update of
`RB_solution` / outputs / basis container, and unchanged across any
`rb_solve` call. -/
theorem eval_output_dual_norm_independent (ev : RBEvaluation)
    (theta : RBThetaExpansion) (n : ℕ) (μ μ2 : List ℚ) (alpha : ℚ) (N : ℕ)
    (s o : List ℚ) (e : List ℝ) (bfs : List (Option (List ℚ))) :
    ({ ev with
        RB_solution := s
        RB_outputs := o
        RB_output_error_bounds := e
        basis_functions := bfs } : RBEvaluation).eval_output_dual_norm theta n μ =
      ev.eval_output_dual_norm theta n μ ∧
    (ev.rb_solve theta μ2 alpha N).map
        (fun p => p.1.eval_output_dual_norm theta n μ) =
      (ev.rb_solve theta μ2 alpha N).map
        (fun _ => ev.eval_output_dual_norm theta n μ) := by
  constructor
  · have hodn : ({ ev with
        RB_solution := s
        RB_outputs := o
        RB_output_error_bounds := e
        basis_functions := bfs } : RBEvaluation).output_dual_norms =
          ev.output_dual_norms := rfl
    unfold RBEvaluation.eval_output_dual_norm
    rw [hodn]
  · refine except_map_congr _ _ _ (fun p hp => ?_)
    have hodn := rb_solve_preserves_output_dual_norms ev theta μ2 alpha N p hp
    unfold RBEvaluation.eval_output_dual_norm
    rw [hodn]

/-- A theta expansion with one affine term each for A and F, both θ ≡ 1,
and no outputs. -/
def thetaOne : RBThetaExpansion where
  Q_a := 1
  Q_f := 1
  n_outputs := 0
  Q_l := fun _ => 0
  eval_A_theta := fun _ _ => 1
  eval_F_theta := fun _ _ => 1
  eval_output_theta := fun _ _ _ => 0

/-- The §8 scenario state: one basis function, `RB_A_q[0]` the `1×1`
matrix `[[2]]` and `RB_F_q[0]` the vector `[4]`. -/
def evScenario : RBEvaluation :=
  { emptyRB with
    basis_functions := [none]
    RB_A_q_vector := [[[2]]]
    RB_F_q_vector := [[4]]
    evaluate_RB_error_bound := false }

/-- Claim C1: in the §8 scenario (Q_a = Q_f = 1, θ_A = θ_F = 1,
N_max = 1, RB_A_q[0][0,0] = 2, RB_F_q[0][0] = 4), `rb_solve 1` succeeds
and yields `RB_solution[0] = 2`. -/
theorem rb_solve_unit_scenario :
    (evScenario.rb_solve thetaOne [] 1 1).map
      (fun p => vecEntry p.1.RB_solution 0) = .ok 2 := by
  simp [RBEvaluation.rb_solve, rb_solve_core, RB_system_matrix, RB_system_rhs, buildMat,
    lsum, matEntry, vecEntry, detL, detFuel, cramerSolve, replaceCol,
    RBEvaluation.get_n_basis_functions, evScenario, thetaOne, emptyRB, List.range_succ,
    Except.map]
  norm_num

/-- Modelled from the spec (§8 zero-basis property): the squared dual
norm of the right-hand side at parameter μ — exactly the `N = 0` residual
of the zero solution, built from `Fq_representor_norms` alone. -/
def rhs_dual_norm_sq (theta : RBThetaExpansion) (μ : List ℚ) (Fq : List ℚ) : ℚ :=
  lsum theta.Q_f (fun q => lsum theta.Q_f (fun q2 =>
    theta.eval_F_theta q μ * theta.eval_F_theta q2 μ * vecEntry Fq (q * theta.Q_f + q2)))

lemma residual_norm_sq_zero (theta : RBThetaExpansion) (μ : List ℚ)
    (Fq : List ℚ) (FqAq AqAq : List (List (List ℚ))) (u : List ℚ) :
    residual_norm_sq theta μ Fq FqAq AqAq u 0 = rhs_dual_norm_sq theta μ Fq := by
  simp [residual_norm_sq, rhs_dual_norm_sq, lsum_eq_sum_range]

/-- Claim C2: whenever the right-hand side is nonzero at the tested
parameter (its dual norm squared is positive) and the stability lower
bound is acceptable, `rb_solve 0` succeeds, sets `RB_solution` to the
empty (zero) vector, and returns a strictly positive (hence nonzero,
finite) error bound. -/
theorem rb_solve_zero_basis (ev : RBEvaluation) (theta : RBThetaExpansion)
    (μ : List ℚ) (alpha : ℚ)
    (hflag : ev.evaluate_RB_error_bound = true)
    (halpha : stability_tol ≤ alpha)
    (hF : 0 < rhs_dual_norm_sq theta μ ev.Fq_representor_norms) :
    ∃ ev2 bound, ev.rb_solve theta μ alpha 0 = .ok (ev2, bound) ∧
      ev2.RB_solution = [] ∧ 0 < bound := by
  have hdenom : residual_scaling_denom alpha = .ok alpha := by
    unfold residual_scaling_denom
    rw [if_neg (not_lt.mpr halpha)]
  have hdet1 : detL (RB_system_matrix theta μ ev.RB_A_q_vector 0) = 1 := rfl
  simp only [RBEvaluation.rb_solve, rb_solve_core, hflag, hdenom, hdet1,
    Nat.not_lt_zero, if_false, ite_false, one_ne_zero, if_true, ite_true,
    cramerSolve, List.range_zero, List.map_nil, Except.map]
  refine ⟨_, _, rfl, rfl, ?_⟩
  rw [residual_norm_sq_zero, max_eq_right hF.le]
  have halpha0 : (0 : ℚ) < alpha :=
    lt_of_lt_of_le (by norm_num [stability_tol]) halpha
  apply div_pos
  · rw [Real.sqrt_pos]
    exact_mod_cast hF
  · exact_mod_cast halpha0

/-- A state whose only nonempty reduced datum is the single
`Fq_representor_norms` entry `4` (a nonzero right-hand side). -/
def evZero : RBEvaluation :=
  { emptyRB with Fq_representor_norms := [4] }

theorem rb_solve_zero_basis_witness :
    evZero.evaluate_RB_error_bound = true ∧ stability_tol ≤ (1 : ℚ) ∧
      0 < rhs_dual_norm_sq thetaOne [] evZero.Fq_representor_norms ∧
      ∃ ev2 bound, evZero.rb_solve thetaOne [] 1 0 = .ok (ev2, bound) ∧
        ev2.RB_solution = [] ∧ 0 < bound :=
  ⟨rfl, by norm_num [stability_tol],
    by norm_num [rhs_dual_norm_sq, lsum, vecEntry, thetaOne, evZero, emptyRB,
      List.range_succ],
    rb_solve_zero_basis evZero thetaOne [] 1 rfl (by norm_num [stability_tol])
      (by norm_num [rhs_dual_norm_sq, lsum, vecEntry, thetaOne, evZero, emptyRB,
        List.range_succ])⟩

/-- Claim C5: for every `Nmax` at least the current basis count,
`resize_data_structures` succeeds, grows every dense reduced structure
(`RB_A_q`, `RB_F_q`, inner-product matrix, representor-norm tensors) to
capacity `Nmax` (with `Q`-shaped outer dimensions), and preserves every
previously stored entry (append-only growth). -/
theorem resize_data_structures_grows_preserving (ev : RBEvaluation)
    (theta : RBThetaExpansion) (Nmax : ℕ) (h : ev.get_n_basis_functions ≤ Nmax) :
    ∃ ev2, ev.resize_data_structures theta Nmax = .ok ev2 ∧
      ev2.RB_inner_product_matrix.length = Nmax ∧
      (∀ i, i < Nmax → (ev2.RB_inner_product_matrix.getD i []).length = Nmax) ∧
      ev2.RB_A_q_vector.length = theta.Q_a ∧
      (∀ q, q < theta.Q_a → (ev2.RB_A_q_vector.getD q []).length = Nmax ∧
        ∀ i, i < Nmax → ((ev2.RB_A_q_vector.getD q []).getD i []).length = Nmax) ∧
      ev2.RB_F_q_vector.length = theta.Q_f ∧
      (∀ q, q < theta.Q_f → (ev2.RB_F_q_vector.getD q []).length = Nmax) ∧
      ev2.Fq_representor_norms.length = theta.Q_f * theta.Q_f ∧
      (∀ q q2, q < theta.Q_f → q2 < theta.Q_a →
        ((ev2.Fq_Aq_representor_norms.getD q []).getD q2 []).length = Nmax) ∧
      (∀ qq, qq < theta.Q_a * theta.Q_a →
        (ev2.Aq_Aq_representor_norms.getD qq []).length = Nmax) ∧
      (∀ i j, i < Nmax → j < Nmax →
        matEntry ev2.RB_inner_product_matrix i j =
          matEntry ev.RB_inner_product_matrix i j) ∧
      (∀ q i j, q < theta.Q_a → i < Nmax → j < Nmax →
        matEntry (ev2.RB_A_q_vector.getD q []) i j =
          matEntry (ev.RB_A_q_vector.getD q []) i j) ∧
      (∀ q i, q < theta.Q_f → i < Nmax →
        vecEntry (ev2.RB_F_q_vector.getD q []) i =
          vecEntry (ev.RB_F_q_vector.getD q []) i) ∧
      (∀ k, k < theta.Q_f * theta.Q_f →
        vecEntry ev2.Fq_representor_norms k = vecEntry ev.Fq_representor_norms k) ∧
      (∀ q q2 j, q < theta.Q_f → q2 < theta.Q_a → j < Nmax →
        vecEntry ((ev2.Fq_Aq_representor_norms.getD q []).getD q2 []) j =
          vecEntry ((ev.Fq_Aq_representor_norms.getD q []).getD q2 []) j) ∧
      (∀ qq i j, qq < theta.Q_a * theta.Q_a → i < Nmax → j < Nmax →
        matEntry (ev2.Aq_Aq_representor_norms.getD qq []) i j =
          matEntry (ev.Aq_Aq_representor_norms.getD qq []) i j) := by
  refine ⟨_, by
    unfold RBEvaluation.resize_data_structures
    rw [if_neg (not_lt.mpr h)], ?_, ?_, ?_, ?_, ?_, ?_, ?_, ?_, ?_, ?_, ?_, ?_, ?_, ?_, ?_⟩
  · exact (by simp [matResize, length_listResize] :
      (matResize ev.RB_inner_product_matrix Nmax).length = Nmax)
  · intro i hi
    exact length_getD_matResize _ _ _ hi
  · simp
  · intro q hq
    show ((((List.range theta.Q_a).map
        (fun q => matResize (ev.RB_A_q_vector.getD q []) Nmax)).getD q []).length = Nmax) ∧ _
    rw [getD_map_range _ _ _ _ hq]
    exact ⟨by simp [matResize, length_listResize],
      fun i hi => length_getD_matResize _ _ _ hi⟩
  · simp
  · intro q hq
    show (((List.range theta.Q_f).map
        (fun q => listResize (ev.RB_F_q_vector.getD q []) Nmax 0)).getD q []).length = Nmax
    rw [getD_map_range _ _ _ _ hq]
    exact length_listResize _ _ _
  · exact length_listResize _ _ _
  · intro q q2 hq hq2
    show ((((List.range theta.Q_f).map (fun q => (List.range theta.Q_a).map
        (fun q2 => listResize ((ev.Fq_Aq_representor_norms.getD q []).getD q2 []) Nmax 0))).getD
          q []).getD q2 []).length = Nmax
    rw [getD_map_range _ _ _ _ hq, getD_map_range _ _ _ _ hq2]
    exact length_listResize _ _ _
  · intro qq hqq
    show (((List.range (theta.Q_a * theta.Q_a)).map
        (fun qq => matResize (ev.Aq_Aq_representor_norms.getD qq []) Nmax)).getD
          qq []).length = Nmax
    rw [getD_map_range _ _ _ _ hqq]
    simp [matResize, length_listResize]
  · intro i j hi hj
    exact matEntry_matResize _ _ _ _ hi hj
  · intro q i j hq hi hj
    show matEntry (((List.range theta.Q_a).map
        (fun q => matResize (ev.RB_A_q_vector.getD q []) Nmax)).getD q []) i j = _
    rw [getD_map_range _ _ _ _ hq]
    exact matEntry_matResize _ _ _ _ hi hj
  · intro q i hq hi
    show vecEntry (((List.range theta.Q_f).map
        (fun q => listResize (ev.RB_F_q_vector.getD q []) Nmax 0)).getD q []) i = _
    rw [getD_map_range _ _ _ _ hq]
    exact vecEntry_listResize _ _ _ hi
  · intro k hk
    exact vecEntry_listResize _ _ _ hk
  · intro q q2 j hq hq2 hj
    show vecEntry ((((List.range theta.Q_f).map (fun q => (List.range theta.Q_a).map
        (fun q2 => listResize ((ev.Fq_Aq_representor_norms.getD q []).getD q2 []) Nmax 0))).getD
          q []).getD q2 []) j = _
    rw [getD_map_range _ _ _ _ hq, getD_map_range _ _ _ _ hq2]
    exact vecEntry_listResize _ _ _ hj
  · intro qq i j hqq hi hj
    show matEntry (((List.range (theta.Q_a * theta.Q_a)).map
        (fun qq => matResize (ev.Aq_Aq_representor_norms.getD qq []) Nmax)).getD qq []) i j = _
    rw [getD_map_range _ _ _ _ hqq]
    exact matEntry_matResize _ _ _ _ hi hj

theorem resize_data_structures_grows_preserving_witness :
    evScenario.get_n_basis_functions ≤ 2 ∧
      ∃ ev2, evScenario.resize_data_structures thetaOne 2 = .ok ev2 ∧
        ev2.RB_inner_product_matrix.length = 2 ∧
        (∀ i, i < 2 → (ev2.RB_inner_product_matrix.getD i []).length = 2) ∧
        ev2.RB_A_q_vector.length = thetaOne.Q_a ∧
        (∀ q, q < thetaOne.Q_a → (ev2.RB_A_q_vector.getD q []).length = 2 ∧
          ∀ i, i < 2 → ((ev2.RB_A_q_vector.getD q []).getD i []).length = 2) ∧
        ev2.RB_F_q_vector.length = thetaOne.Q_f ∧
        (∀ q, q < thetaOne.Q_f → (ev2.RB_F_q_vector.getD q []).length = 2) ∧
        ev2.Fq_representor_norms.length = thetaOne.Q_f * thetaOne.Q_f ∧
        (∀ q q2, q < thetaOne.Q_f → q2 < thetaOne.Q_a →
          ((ev2.Fq_Aq_representor_norms.getD q []).getD q2 []).length = 2) ∧
        (∀ qq, qq < thetaOne.Q_a * thetaOne.Q_a →
          (ev2.Aq_Aq_representor_norms.getD qq []).length = 2) ∧
        (∀ i j, i < 2 → j < 2 →
          matEntry ev2.RB_inner_product_matrix i j =
            matEntry evScenario.RB_inner_product_matrix i j) ∧
        (∀ q i j, q < thetaOne.Q_a → i < 2 → j < 2 →
          matEntry (ev2.RB_A_q_vector.getD q []) i j =
            matEntry (evScenario.RB_A_q_vector.getD q []) i j) ∧
        (∀ q i, q < thetaOne.Q_f → i < 2 →
          vecEntry (ev2.RB_F_q_vector.getD q []) i =
            vecEntry (evScenario.RB_F_q_vector.getD q []) i) ∧
        (∀ k, k < thetaOne.Q_f * thetaOne.Q_f →
          vecEntry ev2.Fq_representor_norms k = vecEntry evScenario.Fq_representor_norms k) ∧
        (∀ q q2 j, q < thetaOne.Q_f → q2 < thetaOne.Q_a → j < 2 →
          vecEntry ((ev2.Fq_Aq_representor_norms.getD q []).getD q2 []) j =
            vecEntry ((evScenario.Fq_Aq_representor_norms.getD q []).getD q2 []) j) ∧
        (∀ qq i j, qq < thetaOne.Q_a * thetaOne.Q_a → i < 2 → j < 2 →
          matEntry (ev2.Aq_Aq_representor_norms.getD qq []) i j =
            matEntry (evScenario.Aq_Aq_representor_norms.getD qq []) i j) :=
  ⟨by simp [evScenario, emptyRB, RBEvaluation.get_n_basis_functions],
    resize_data_structures_grows_preserving evScenario thetaOne 2
      (by simp [evScenario, emptyRB, RBEvaluation.get_n_basis_functions])⟩

end RBEval
